import Mathlib

/-!
Shallow embedding of the easymoney-desktop back end (src/backend/server.py)
for specification checking.

Modelling conventions:
* Python floats are modelled as exact rationals; the built-in round(x, 2)
  is modelled as round-half-to-even at 2 decimal places (its documented
  decimal behaviour).
* Python strings are Lean Strings; the helper mask_id_number treats a
  Python str as its list of characters.
* MongoDB collections are Lean lists kept in insertion order; find_one is
  first-match lookup, update_one rewrites the first matching document.
* The audit ledger is a list in creation order (the single sequential
  writer of the spec); created_at values are opaque strings supplied by
  the caller.
* SHA-256 and the json.dumps(sort_keys=True) canonical serialization are
  implemented concretely below, so hash-chain statements evaluate on
  concrete inputs.
-/

attribute [local semireducible] Rat.add Rat.mul Rat.inv Rat.sub Rat.ofScientific

set_option maxRecDepth 100000

namespace EasyMoney

/-- Python round(x, 2) on the rational model: round half to even at two
decimal places. -/
def pyround2 (x : ℚ) : ℚ :=
  let y : ℚ := x * 100
  let fl : ℤ := ⌊y⌋
  let frac : ℚ := y - fl
  let n : ℤ :=
    if frac > 1/2 then fl + 1
    else if frac < 1/2 then fl
    else if fl % 2 = 0 then fl else fl + 1
  (n : ℚ) / 100

/-- Result dict of calculate_loan. -/
structure CalcResult where
  interest_rate : ℚ
  service_fee : ℚ
  total_repayable : ℚ
  installment_amount : ℚ
  deriving Repr, DecidableEq

/-- server.py calculate_loan: fixed 40% interest and service fee 12.
Returns none exactly when plan_code = 0, where Python raises
ZeroDivisionError; no other input is rejected. -/
def calculate_loan (principal : ℚ) (plan_code : ℚ) : Option CalcResult :=
  if plan_code = 0 then none
  else
    let interest_rate : ℚ := 40/100
    let service_fee : ℚ := 12
    let total_repayable : ℚ := principal * (1 + interest_rate) + service_fee
    let installment_amount : ℚ := total_repayable / plan_code
    some ⟨interest_rate, service_fee,
          pyround2 total_repayable, pyround2 installment_amount⟩

/-- One generated schedule entry (payment dict before ids are attached).
Dates are modelled as rational day numbers: datetime.fromisoformat is the
identity on this model and timedelta(days = k) adds k. -/
structure ScheduleEntry where
  installment_number : ℕ
  amount_due : ℚ
  due_date : ℚ
  is_paid : Bool
  paid_at : Option String
  paid_by : Option String
  deriving Repr, DecidableEq

/-- Interval table of generate_payment_schedule: 30 days if plan_code = 1,
14 if plan_code = 2, else 7. -/
def schedule_interval (plan_code : ℕ) : ℕ :=
  if plan_code = 1 then 30
  else if plan_code = 2 then 14
  else 7

/-- server.py generate_payment_schedule: plan_code entries, each for
round(total / plan_code, 2), due at loan_date + interval * (i + 1). -/
def generate_payment_schedule (loan_date : ℚ) (total : ℚ) (plan_code : ℕ) :
    List ScheduleEntry :=
  let installment : ℚ := pyround2 (total / plan_code)
  let interval_days : ℕ := schedule_interval plan_code
  (List.range plan_code).map fun i =>
    { installment_number := i + 1
      amount_due := installment
      due_date := loan_date + (interval_days : ℚ) * (i + 1)
      is_paid := false
      paid_at := none
      paid_by := none }

/-! ### SHA-256 (hashlib.sha256, FIPS 180-4), over byte lists -/

/-- Word arithmetic modulo 2^32. -/
def wmod (n : ℕ) : ℕ := n % 4294967296

/-- Right rotation of a 32-bit word. -/
def rotr (k x : ℕ) : ℕ := wmod ((x >>> k) ||| (x <<< (32 - k)))

/-- SHA-256 Ch function; bitwise not is xor with the 32-bit mask. -/
def shaCh (x y z : ℕ) : ℕ := (x &&& y) ^^^ ((x ^^^ 4294967295) &&& z)

/-- SHA-256 Maj function. -/
def shaMaj (x y z : ℕ) : ℕ := (x &&& y) ^^^ (x &&& z) ^^^ (y &&& z)

/-- SHA-256 big sigma 0. -/
def bsig0 (x : ℕ) : ℕ := rotr 2 x ^^^ rotr 13 x ^^^ rotr 22 x

/-- SHA-256 big sigma 1. -/
def bsig1 (x : ℕ) : ℕ := rotr 6 x ^^^ rotr 11 x ^^^ rotr 25 x

/-- SHA-256 small sigma 0. -/
def ssig0 (x : ℕ) : ℕ := rotr 7 x ^^^ rotr 18 x ^^^ (x >>> 3)

/-- SHA-256 small sigma 1. -/
def ssig1 (x : ℕ) : ℕ := rotr 17 x ^^^ rotr 19 x ^^^ (x >>> 10)

/-- SHA-256 round constants. -/
def shaK : List ℕ :=
  [1116352408, 1899447441, 3049323471, 3921009573, 961987163, 1508970993,
   2453635748, 2870763221, 3624381080, 310598401, 607225278, 1426881987,
   1925078388, 2162078206, 2614888103, 3248222580, 3835390401, 4022224774,
   264347078, 604807628, 770255983, 1249150122, 1555081692, 1996064986,
   2554220882, 2821834349, 2952996808, 3210313671, 3336571891, 3584528711,
   113926993, 338241895, 666307205, 773529912, 1294757372, 1396182291,
   1695183700, 1986661051, 2177026350, 2456956037, 2730485921, 2820302411,
   3259730800, 3345764771, 3516065817, 3600352804, 4094571909, 275423344,
   430227734, 506948616, 659060556, 883997877, 958139571, 1322822218,
   1537002063, 1747873779, 1955562222, 2024104815, 2227730452, 2361852424,
   2428436474, 2756734187, 3204031479, 3329325298]

/-- SHA-256 initial hash state. -/
def shaH0 : List ℕ :=
  [1779033703, 3144134277, 1013904242, 2773480762,
   1359893119, 2600822924, 528734635, 1541459225]

/-- Append the 0x80 marker, zero padding and the 64-bit big-endian bit
length, reaching a multiple of 64 bytes. -/
def padMessage (msg : List ℕ) : List ℕ :=
  let len := msg.length
  let zeros := (119 - len % 64) % 64
  let bitlen := len * 8
  let lenBytes := (List.range 8).map fun i => (bitlen >>> (8 * (7 - i))) % 256
  msg ++ 128 :: List.replicate zeros 0 ++ lenBytes

/-- Group bytes into big-endian 32-bit words. -/
def bytesToWords : List ℕ → List ℕ
  | a :: b :: c :: d :: rest => (((a * 256 + b) * 256 + c) * 256 + d) :: bytesToWords rest
  | _ => []

/-- Split the word stream into 16-word blocks (the padded stream length is
always a multiple of 16). -/
def wordBlocks : List ℕ → List (List ℕ)
  | w1 :: w2 :: w3 :: w4 :: w5 :: w6 :: w7 :: w8 ::
    w9 :: w10 :: w11 :: w12 :: w13 :: w14 :: w15 :: w16 :: rest =>
      [w1, w2, w3, w4, w5, w6, w7, w8, w9, w10, w11, w12, w13, w14, w15, w16]
        :: wordBlocks rest
  | _ => []

/-- Extend a 16-word block to the 64-word message schedule. -/
def shaSchedule (w16 : List ℕ) : List ℕ :=
  (List.range 48).foldl
    (fun acc _ =>
      let n := acc.length
      acc ++ [wmod (ssig1 (acc.getD (n - 2) 0) + acc.getD (n - 7) 0 +
                    ssig0 (acc.getD (n - 15) 0) + acc.getD (n - 16) 0)])
    w16

/-- One SHA-256 compression round on the 8-word working state. -/
def shaRound (s : List ℕ) (kw : ℕ × ℕ) : List ℕ :=
  match s with
  | [a, b, c, d, e, f, g, h] =>
      let t1 := wmod (h + bsig1 e + shaCh e f g + kw.1 + kw.2)
      let t2 := wmod (bsig0 a + shaMaj a b c)
      [wmod (t1 + t2), a, b, c, wmod (d + t1), e, f, g]
  | s => s

/-- Process one block: 64 rounds then add back to the chaining state. -/
def shaBlock (h : List ℕ) (w16 : List ℕ) : List ℕ :=
  let s := (shaK.zip (shaSchedule w16)).foldl shaRound h
  (h.zip s).map fun p => wmod (p.1 + p.2)

/-- SHA-256 of a byte list, as the 8-word state. -/
def sha256Words (msg : List ℕ) : List ℕ :=
  (wordBlocks (bytesToWords (padMessage msg))).foldl shaBlock shaH0

/-- Lower-case hex digit. -/
def hexDigit (n : ℕ) : Char :=
  if n < 10 then Char.ofNat (48 + n) else Char.ofNat (87 + n)

/-- 8 hex characters of a 32-bit word, most significant first. -/
def wordHex (w : ℕ) : List Char :=
  (List.range 8).map fun i => hexDigit ((w >>> (4 * (7 - i))) % 16)

/-- Bytes of a Lean string as Python str.encode() produces them; the
strings hashed by this development are ASCII, where code points and UTF-8
bytes agree. -/
def strBytes (s : String) : List ℕ := s.data.map Char.toNat

/-- hashlib.sha256(s.encode()).hexdigest(). -/
def sha256hex (s : String) : String :=
  ⟨((sha256Words (strBytes s)).map wordHex).flatten⟩

/-! ### json.dumps(..., sort_keys=True) canonical serialization

The audit payloads passed by server.py are flat dicts of scalars; the
payload domain is modelled as association lists of scalars.  Rational
scalars stand for Python floats; their rendering below agrees with
float repr on values with a finite decimal expansion, which is all the
code ever logs. -/

/-- Scalar JSON values occurring in audit payloads. -/
inductive JScalar where
  | null
  | b (v : Bool)
  | i (v : ℤ)
  | q (v : ℚ)
  | s (v : String)
  deriving Repr, DecidableEq

/-- A flat JSON object: keys with scalar values. -/
abbrev JObj := List (String × JScalar)

/-- 4 hex characters, most significant first. -/
def hex4 (n : ℕ) : List Char :=
  (List.range 4).map fun i => hexDigit ((n >>> (4 * (3 - i))) % 16)

/-- One character escaped as json.dumps with ensure_ascii renders it. -/
def escapeChar (c : Char) : List Char :=
  let n := c.toNat
  if c = '"' then ['\\', '"']
  else if c = '\\' then ['\\', '\\']
  else if n = 8 then ['\\', 'b']
  else if n = 9 then ['\\', 't']
  else if n = 10 then ['\\', 'n']
  else if n = 12 then ['\\', 'f']
  else if n = 13 then ['\\', 'r']
  else if n < 32 ∨ 126 < n then
    if n ≤ 65535 then '\\' :: 'u' :: hex4 n
    else ('\\' :: 'u' :: hex4 (55296 + (n - 65536) / 1024)) ++
         ('\\' :: 'u' :: hex4 (56320 + (n - 65536) % 1024))
  else [c]

/-- A JSON string literal with quotes and escapes. -/
def encodeString (s : String) : String :=
  ⟨'"' :: (s.data.map escapeChar).flatten ++ ['"']⟩

/-- Decimal rendering of a rational with denominator dividing 10^k for the
smallest such k up to 40; integral values keep one trailing zero as float
repr does. -/
def decimalRepr (v : ℚ) : String :=
  match (List.range 41).find? (fun k => v.den ∣ 10 ^ k) with
  | none => toString v.num ++ "/" ++ toString v.den
  | some k =>
    if k = 0 then toString v.num ++ ".0"
    else
      let scaled := v.num.natAbs * (10 ^ k / v.den)
      let sign := if v.num < 0 then "-" else ""
      let digits := toString scaled
      let digits := if digits.length ≤ k then
        String.mk (List.replicate (k + 1 - digits.length) '0') ++ digits else digits
      sign ++ ⟨digits.data.take (digits.length - k)⟩ ++ "." ++
        ⟨digits.data.drop (digits.length - k)⟩

/-- One scalar as json.dumps renders it. -/
def encodeScalar : JScalar → String
  | .null => "null"
  | .b true => "true"
  | .b false => "false"
  | .i v => toString v
  | .q v => decimalRepr v
  | .s v => encodeString v

/-- Lexicographic code-point comparison of character lists, the order
Python uses on str. -/
def charListLt : List Char → List Char → Bool
  | [], [] => false
  | [], _ :: _ => true
  | _ :: _, [] => false
  | a :: as, b :: bs =>
    if a.toNat < b.toNat then true
    else if b.toNat < a.toNat then false
    else charListLt as bs

/-- Python str comparison. -/
def strLt (a b : String) : Bool := charListLt a.data b.data

/-- Stable insertion into a key-sorted association list. -/
def insertKey (kv : String × JScalar) : JObj → JObj
  | [] => [kv]
  | x :: xs => if strLt kv.1 x.1 then kv :: x :: xs else x :: insertKey kv xs

/-- sorted(obj) by key, as sort_keys=True does. -/
def sortKeys (o : JObj) : JObj := o.foldr insertKey []

/-- A JSON object with sorted keys and the default item separators. -/
def encodeObj (o : JObj) : String :=
  "\x7b" ++ String.intercalate ", "
    ((sortKeys o).map fun kv => encodeString kv.1 ++ ": " ++ encodeScalar kv.2) ++ "\x7d"

/-- An optional payload: Python None renders as null. -/
def encodeOptObj : Option JObj → String
  | none => "null"
  | some o => encodeObj o

/-! ### Audit ledger (hash chain) -/

/-- The canonical audit record assembled by create_audit_log before id and
integrity_hash are attached; exactly the content that is hashed. -/
structure LogRecord where
  entity_type : String
  entity_id : String
  action : String
  before_json : Option JObj
  after_json : Option JObj
  actor_user_id : String
  actor_name : String
  reason : Option String
  created_at : String
  deriving Repr, DecidableEq

/-- json.dumps(log_data, sort_keys=True, default=str): the nine keys of
the canonical record in sorted key order. -/
def serializeLogRecord (r : LogRecord) : String :=
  "\x7b\"action\": " ++ encodeString r.action ++
  ", \"actor_name\": " ++ encodeString r.actor_name ++
  ", \"actor_user_id\": " ++ encodeString r.actor_user_id ++
  ", \"after_json\": " ++ encodeOptObj r.after_json ++
  ", \"before_json\": " ++ encodeOptObj r.before_json ++
  ", \"created_at\": " ++ encodeString r.created_at ++
  ", \"entity_id\": " ++ encodeString r.entity_id ++
  ", \"entity_type\": " ++ encodeString r.entity_type ++
  ", \"reason\": " ++ (match r.reason with
      | none => "null"
      | some s => encodeString s) ++
  "\x7d"

/-- server.py compute_integrity_hash: SHA-256 over the canonical
serialization with the previous hash concatenated. -/
def compute_integrity_hash (data : LogRecord) (previous_hash : String) : String :=
  sha256hex (serializeLogRecord data ++ previous_hash)

/-- A persisted audit document: canonical record plus id and
integrity_hash (both excluded from the hashed content). -/
structure StoredEntry where
  record : LogRecord
  id : String
  integrity_hash : String
  deriving Repr, DecidableEq

/-- server.py get_previous_audit_hash: integrity hash of the most recent
entry, empty string for an empty ledger; the ledger list is kept in
creation order. -/
def get_previous_audit_hash (logs : List StoredEntry) : String :=
  match logs.getLast? with
  | none => ""
  | some e => e.integrity_hash

/-- server.py create_audit_log: append one entry chained to the previous
hash; the fresh id is supplied by the caller (uuid4 in the source). -/
def create_audit_log (logs : List StoredEntry) (r : LogRecord) (newId : String) :
    List StoredEntry :=
  logs ++ [⟨r, newId, compute_integrity_hash r (get_previous_audit_hash logs)⟩]

/-- Sequential appends of a batch of records with their fresh ids. -/
def appendRecords (logs : List StoredEntry) (rs : List (LogRecord × String)) :
    List StoredEntry :=
  rs.foldl (fun l ri => create_audit_log l ri.1 ri.2) logs

/-- One reported mismatch of verify_audit_integrity. -/
structure InvalidEntry where
  id : String
  expected : String
  stored : String
  deriving Repr, DecidableEq

/-- The verification walk of verify_audit_integrity: recompute each
entry's hash from its canonical record and the previous entry's stored
hash, collecting mismatches in order. -/
def verifyWalk (prev : String) : List StoredEntry → List InvalidEntry
  | [] => []
  | e :: rest =>
    if compute_integrity_hash e.record prev ≠ e.integrity_hash then
      ⟨e.id, compute_integrity_hash e.record prev, e.integrity_hash⟩ ::
        verifyWalk e.integrity_hash rest
    else verifyWalk e.integrity_hash rest

/-- Result of verify_audit_integrity; the human-readable message strings
of the endpoint are dropped. -/
structure VerifyResult where
  valid : Bool
  invalid_entries : List InvalidEntry
  deriving Repr, DecidableEq

/-- server.py verify_audit_integrity: an empty ledger is trivially valid;
otherwise walk from the empty previous hash and report at most the first
5 mismatches.  (The endpoint fetches at most 100000 documents; ledgers
are modelled within that bound.) -/
def verify_audit_integrity (logs : List StoredEntry) : VerifyResult :=
  if logs.isEmpty then ⟨true, []⟩
  else
    let inv := verifyWalk "" logs
    if inv.isEmpty then ⟨true, []⟩ else ⟨false, inv.take 5⟩

/-- Stored hash of the entry just before position k of the chain (empty
string for k = 0), tracked the way the verification walk tracks it. -/
def prevStored (prev : String) : List StoredEntry → ℕ → String
  | [], _ => prev
  | _ :: _, 0 => prev
  | e :: rest, k + 1 => prevStored e.integrity_hash rest k

/-- server.py mask_id_number on the characters of the Python string:
13-character inputs keep the first 4 and last 3 characters with six
asterisks between; any other length maps to the constant 11 asterisks. -/
def mask_id_number (id_number : List Char) : List Char :=
  if id_number.length ≠ 13 then "***********".data
  else id_number.take 4 ++ "******".data ++ id_number.drop 10

/-! ### Loan and payment lifecycle

The REST endpoints are modelled as functions on the database state.  The
identity/session collaborator is out of scope (spec section 6): the
resolved actor arrives as id and name.  Fresh uuid4 values and UTC
timestamps are inputs.  An endpoint that raises an HTTPException (or an
uncaught Python error, status 500) returns the error together with the
state as of the raise, so partial writes made before a raise are
preserved by the model. -/

/-- LoanStatus values of server.py. -/
inductive LoanStatus where
  | opened
  | paid
  | archived
  deriving Repr, DecidableEq

/-- RepaymentPlan enum values 1, 2, 4, the only plan codes the pydantic
LoanCreate request admits. -/
inductive RepaymentPlan where
  | monthly
  | fortnightly
  | weekly
  deriving Repr, DecidableEq

/-- RepaymentPlan.value. -/
def RepaymentPlan.count : RepaymentPlan → ℕ
  | .monthly => 1
  | .fortnightly => 2
  | .weekly => 4

/-- The customer fields the lifecycle operations consult. -/
structure CustomerRec where
  id : String
  client_name : String
  id_number : String
  mandate_id : String
  archived_at : Option String
  archived_by : Option String
  deriving Repr, DecidableEq

/-- A loan document; monetary fields and dates are rationals. -/
structure LoanRec where
  id : String
  customer_id : String
  loan_date : ℚ
  principal_amount : ℚ
  interest_rate : ℚ
  service_fee : ℚ
  total_repayable : ℚ
  repayment_plan_code : ℚ
  installment_amount : ℚ
  outstanding_balance : ℚ
  status : LoanStatus
  fields_locked : Bool
  created_at : String
  created_by : String
  updated_at : Option String
  updated_by : Option String
  archived_at : Option String
  archived_by : Option String
  deriving Repr, DecidableEq

/-- A payment (installment) document. -/
structure PaymentRec where
  id : String
  loan_id : String
  installment_number : ℕ
  amount_due : ℚ
  due_date : ℚ
  is_paid : Bool
  paid_at : Option String
  paid_by : Option String
  created_at : String
  deriving Repr, DecidableEq

/-- The collections the lifecycle endpoints read and write. -/
structure DBState where
  customers : List CustomerRec
  loans : List LoanRec
  payments : List PaymentRec
  audit_logs : List StoredEntry
  deriving Repr, DecidableEq

/-- An HTTPException of the source (status code and detail text). -/
structure ApiErr where
  status : ℕ
  detail : String
  deriving Repr, DecidableEq

/-- 404 of mark_payment_paid. -/
def paymentNotFound : ApiErr := ⟨404, "Payment not found"⟩

/-- 400 of mark_payment_paid on an already-paid installment: the
irreversible-state Conflict of the spec taxonomy. -/
def alreadyPaidConflict : ApiErr :=
  ⟨400, "Payment already marked as paid - cannot be reversed"⟩

/-- 404 for a missing loan. -/
def loanNotFound : ApiErr := ⟨404, "Loan not found"⟩

/-- 404 for a missing customer. -/
def customerNotFound : ApiErr := ⟨404, "Customer not found"⟩

/-- 400 of override_loan_field on a field outside the allow list. -/
def fieldNotAllowed (f : String) : ApiErr :=
  ⟨400, "Field " ++ f ++ " cannot be overridden"⟩

/-- 400 of override_loan_field on a too-short reason: the InvalidArgument
of the spec taxonomy. -/
def reasonTooShort : ApiErr := ⟨400, "Reason must be at least 10 characters"⟩

/-- 400 of archive_entity on a too-short reason. -/
def archiveReasonTooShort : ApiErr :=
  ⟨400, "Archive reason must be at least 10 characters"⟩

/-- 400 of archive_entity on an unknown entity type. -/
def invalidEntityType : ApiErr := ⟨400, "Invalid entity type"⟩

/-- An uncaught Python exception surfacing as a 500. -/
def serverError : ApiErr := ⟨500, "Internal Server Error"⟩

/-- MongoDB update_one: rewrite the first matching document. -/
def updateOne (pred : α → Bool) (f : α → α) : List α → List α
  | [] => []
  | x :: xs => if pred x then f x :: xs else x :: updateOne pred f xs

/-- POST /api/loans (create_loan): look up the customer, compute terms
and schedule, persist the loan and its payments, append one audit entry.
loan_id, payment id generator, audit id and the now timestamp model
uuid4/datetime.now. -/
def create_loan (st : DBState) (customer_id : String) (principal_amount : ℚ)
    (plan : RepaymentPlan) (loan_date : ℚ) (loan_id : String)
    (payment_ids : ℕ → String) (actor_id actor_name : String)
    (now : String) (audit_id : String) :
    Except (ApiErr × DBState) (DBState × String) :=
  match st.customers.find? (fun c => c.id == customer_id) with
  | none => .error (customerNotFound, st)
  | some _ =>
    match calculate_loan principal_amount (plan.count : ℚ) with
    | none => .error (serverError, st)
    | some calcRes =>
      let schedule := generate_payment_schedule loan_date calcRes.total_repayable plan.count
      let loan : LoanRec :=
        { id := loan_id
          customer_id := customer_id
          loan_date := loan_date
          principal_amount := principal_amount
          interest_rate := calcRes.interest_rate
          service_fee := calcRes.service_fee
          total_repayable := calcRes.total_repayable
          repayment_plan_code := (plan.count : ℚ)
          installment_amount := calcRes.installment_amount
          outstanding_balance := calcRes.total_repayable
          status := .opened
          fields_locked := true
          created_at := now
          created_by := actor_id
          updated_at := none
          updated_by := none
          archived_at := none
          archived_by := none }
      let pays : List PaymentRec := schedule.enum.map fun ip =>
        { id := payment_ids ip.1
          loan_id := loan_id
          installment_number := ip.2.installment_number
          amount_due := ip.2.amount_due
          due_date := ip.2.due_date
          is_paid := ip.2.is_paid
          paid_at := ip.2.paid_at
          paid_by := ip.2.paid_by
          created_at := now }
      let logRec : LogRecord :=
        { entity_type := "loan", entity_id := loan_id, action := "create"
          before_json := none
          after_json := some [("customer_id", .s customer_id),
                              ("principal", .q principal_amount),
                              ("plan", .i (plan.count : ℤ))]
          actor_user_id := actor_id, actor_name := actor_name
          reason := none, created_at := now }
      .ok ({ st with
              loans := st.loans ++ [loan]
              payments := st.payments ++ pays
              audit_logs := create_audit_log st.audit_logs logRec audit_id },
           loan_id)

/-- POST /api/payments/mark-paid (mark_payment_paid): find the payment by
(loan_id, installment_number); 404 if absent, 400 Conflict if already
paid; otherwise set is_paid/paid_at/paid_by, recompute the loan balance
with a floor of 0, move the loan to paid when the new balance is at most
0, and append an audit entry.  The payment update precedes the loan
lookup, as in the source. -/
def mark_payment_paid (st : DBState) (loan_id : String) (installment_number : ℕ)
    (actor_id actor_name : String) (now : String) (audit_id : String) :
    Except (ApiErr × DBState) (DBState × ℚ × LoanStatus) :=
  match st.payments.find? (fun p =>
      p.loan_id == loan_id && p.installment_number == installment_number) with
  | none => .error (paymentNotFound, st)
  | some payment =>
    if payment.is_paid then .error (alreadyPaidConflict, st)
    else
      let payments' := updateOne (fun p => p.id == payment.id)
        (fun p => { p with is_paid := true, paid_at := some now,
                           paid_by := some actor_id }) st.payments
      match st.loans.find? (fun l => l.id == loan_id) with
      | none => .error (serverError, { st with payments := payments' })
      | some loan =>
        let new_balance := pyround2 (loan.outstanding_balance - payment.amount_due)
        let new_status := if new_balance ≤ 0 then LoanStatus.paid else loan.status
        let loans' := updateOne (fun l => l.id == loan_id)
          (fun l => { l with outstanding_balance := max 0 new_balance,
                             status := new_status,
                             updated_at := some now,
                             updated_by := some actor_id }) st.loans
        let logRec : LogRecord :=
          { entity_type := "payment", entity_id := payment.id, action := "mark_paid"
            before_json := some [("is_paid", .b false)]
            after_json := some [("is_paid", .b true), ("paid_at", .s now)]
            actor_user_id := actor_id, actor_name := actor_name
            reason := none, created_at := now }
        .ok ({ st with payments := payments', loans := loans'
                       audit_logs := create_audit_log st.audit_logs logRec audit_id },
             max 0 new_balance, new_status)

/-- The allow list of override_loan_field. -/
def overrideAllowed (field_name : String) : Bool :=
  field_name == "loan_date" || field_name == "principal_amount" ||
    field_name == "repayment_plan_code"

/-- The audit payload value of a loan field (the request new_value is
untyped JSON in the source; the model's payload domain covers the numeric
overrides the spec describes, so field values render as floats). -/
def loanFieldValue (loan : LoanRec) (field_name : String) : JScalar :=
  if field_name == "loan_date" then .q loan.loan_date
  else if field_name == "principal_amount" then .q loan.principal_amount
  else .q loan.repayment_plan_code

/-- POST /api/loans/override-field (override_loan_field): 404 if the loan
is absent, 400 if the field is not in the allow list, 400 if the reason
has fewer than 10 characters; otherwise set the field (plus
updated_at/by), and when the field is principal_amount or
repayment_plan_code recompute terms from the new value merged with the
loan's current other value, overwriting the derived monetary fields and
resetting outstanding_balance to the recomputed total; append one audit
entry carrying the reason. -/
def override_loan_field (st : DBState) (loan_id field_name : String)
    (new_value : ℚ) (reason : String) (actor_id actor_name : String)
    (now : String) (audit_id : String) :
    Except (ApiErr × DBState) DBState :=
  match st.loans.find? (fun l => l.id == loan_id) with
  | none => .error (loanNotFound, st)
  | some loan =>
    if !overrideAllowed field_name then .error (fieldNotAllowed field_name, st)
    else if reason.length < 10 then .error (reasonTooShort, st)
    else
      let before_value := loanFieldValue loan field_name
      let setBase : LoanRec → LoanRec := fun l =>
        let l :=
          if field_name == "loan_date" then { l with loan_date := new_value }
          else if field_name == "principal_amount" then
            { l with principal_amount := new_value }
          else { l with repayment_plan_code := new_value }
        { l with updated_at := some now, updated_by := some actor_id }
      let logRec : LogRecord :=
        { entity_type := "loan", entity_id := loan_id, action := "field_override"
          before_json := some [(field_name, before_value)]
          after_json := some [(field_name, .q new_value)]
          actor_user_id := actor_id, actor_name := actor_name
          reason := some reason, created_at := now }
      if field_name == "principal_amount" || field_name == "repayment_plan_code" then
        let principal :=
          if field_name == "principal_amount" then new_value else loan.principal_amount
        let plan :=
          if field_name == "repayment_plan_code" then new_value
          else loan.repayment_plan_code
        match calculate_loan principal plan with
        | none => .error (serverError, st)
        | some calcRes =>
          let setCalc : LoanRec → LoanRec := fun l =>
            { setBase l with
                interest_rate := calcRes.interest_rate
                service_fee := calcRes.service_fee
                total_repayable := calcRes.total_repayable
                installment_amount := calcRes.installment_amount
                outstanding_balance := calcRes.total_repayable }
          .ok { st with
                  loans := updateOne (fun l => l.id == loan_id) setCalc st.loans
                  audit_logs := create_audit_log st.audit_logs logRec audit_id }
      else
        .ok { st with
                loans := updateOne (fun l => l.id == loan_id) setBase st.loans
                audit_logs := create_audit_log st.audit_logs logRec audit_id }

/-- POST /api/archive (archive_entity): reason checked first, then the
customer or loan gets archived_at/archived_by set; one audit entry with
the reason. -/
def archive_entity (st : DBState) (entity_type entity_id reason : String)
    (actor_id actor_name : String) (now : String) (audit_id : String) :
    Except (ApiErr × DBState) DBState :=
  if reason.length < 10 then .error (archiveReasonTooShort, st)
  else
    let logRec : LogRecord :=
      { entity_type := entity_type, entity_id := entity_id, action := "archive"
        before_json := none, after_json := none
        actor_user_id := actor_id, actor_name := actor_name
        reason := some reason, created_at := now }
    if entity_type == "customer" then
      match st.customers.find? (fun c => c.id == entity_id) with
      | none => .error (customerNotFound, st)
      | some _ =>
        .ok { st with
                customers := updateOne (fun c => c.id == entity_id)
                  (fun c => { c with archived_at := some now,
                                     archived_by := some actor_id }) st.customers
                audit_logs := create_audit_log st.audit_logs logRec audit_id }
    else if entity_type == "loan" then
      match st.loans.find? (fun l => l.id == entity_id) with
      | none => .error (loanNotFound, st)
      | some _ =>
        .ok { st with
                loans := updateOne (fun l => l.id == entity_id)
                  (fun l => { l with archived_at := some now,
                                     archived_by := some actor_id }) st.loans
                audit_logs := create_audit_log st.audit_logs logRec audit_id }
    else .error (invalidEntityType, st)

/-- One successful API mutation of the loans or payments collections:
the four lifecycle endpoints of server.py that write them.  The
backup-restore endpoint, which wholesale-replaces collections from an
external file, is plumbing outside the specified core (spec section 1)
and outside this relation. -/
inductive Step : DBState → DBState → Prop where
  | create : ∀ st cid P plan d lid pids aid anm now audid st' rid,
      create_loan st cid P plan d lid pids aid anm now audid = .ok (st', rid) →
      Step st st'
  | markPaid : ∀ st lid n aid anm now audid st' resp,
      mark_payment_paid st lid n aid anm now audid = .ok (st', resp) →
      Step st st'
  | override : ∀ st lid fname v reason aid anm now audid st',
      override_loan_field st lid fname v reason aid anm now audid = .ok st' →
      Step st st'
  | archive : ∀ st ety eid reason aid anm now audid st',
      archive_entity st ety eid reason aid anm now audid = .ok st' →
      Step st st'

/-! ### Helpers and fixtures for the statements below -/

/-- The stored hash at the end of a chain segment, starting from prev for
an empty segment; get_previous_audit_hash logs is chainEnd "" logs. -/
def chainEnd (prev : String) : List StoredEntry → String
  | [] => prev
  | e :: xs => chainEnd e.integrity_hash xs

/-- Tampering with one stored document: its after_json payload is
rewritten in place while its stored id and integrity_hash stay. -/
def mutateAfter (e : StoredEntry) (a' : Option JObj) : StoredEntry :=
  { e with record := { e.record with after_json := a' } }

instance {ε α : Type} [DecidableEq ε] [DecidableEq α] : DecidableEq (Except ε α) :=
  fun a b =>
    match a, b with
    | .ok x, .ok y =>
      if h : x = y then isTrue (by rw [h])
      else isFalse fun hh => h (Except.ok.inj hh)
    | .error x, .error y =>
      if h : x = y then isTrue (by rw [h])
      else isFalse fun hh => h (Except.error.inj hh)
    | .ok _, .error _ => isFalse fun hh => Except.noConfusion hh
    | .error _, .ok _ => isFalse fun hh => Except.noConfusion hh

/-- State after an endpoint returning a response, falling back on error. -/
def okState {α : Type} (e : Except (ApiErr × DBState) (DBState × α))
    (fallback : DBState) : DBState :=
  match e with
  | .ok (s, _) => s
  | .error _ => fallback

/-- State after an endpoint returning only the state, falling back on
error. -/
def okState1 (e : Except (ApiErr × DBState) DBState) (fallback : DBState) : DBState :=
  match e with
  | .ok s => s
  | .error _ => fallback

/-- Fixture: one customer. -/
def wCustomer : CustomerRec :=
  { id := "c1", client_name := "Cust", id_number := "8001015009087",
    mandate_id := "M1", archived_at := none, archived_by := none }

/-- Fixture: a fortnightly loan of 1000 (terms as calculate_loan yields
them). -/
def wLoan : LoanRec :=
  { id := "L1", customer_id := "c1", loan_date := 0, principal_amount := 1000,
    interest_rate := 2/5, service_fee := 12, total_repayable := 1412,
    repayment_plan_code := 2, installment_amount := 706,
    outstanding_balance := 1412, status := .opened, fields_locked := true,
    created_at := "t0", created_by := "u1", updated_at := none,
    updated_by := none, archived_at := none, archived_by := none }

/-- Fixture: first installment of wLoan. -/
def wPayment1 : PaymentRec :=
  { id := "P1", loan_id := "L1", installment_number := 1, amount_due := 706,
    due_date := 14, is_paid := false, paid_at := none, paid_by := none,
    created_at := "t0" }

/-- Fixture: second installment of wLoan. -/
def wPayment2 : PaymentRec :=
  { id := "P2", loan_id := "L1", installment_number := 2, amount_due := 706,
    due_date := 28, is_paid := false, paid_at := none, paid_by := none,
    created_at := "t0" }

/-- Fixture: a database with one customer, one loan, two open
installments and an empty ledger. -/
def wState : DBState :=
  { customers := [wCustomer], loans := [wLoan], payments := [wPayment1, wPayment2],
    audit_logs := [] }

/-- Fixture: a first audit record. -/
def wRec1 : LogRecord :=
  { entity_type := "loan", entity_id := "L1", action := "create",
    before_json := none
    after_json := some [("customer_id", .s "c1"), ("plan", .i 2)]
    actor_user_id := "u1", actor_name := "User One", reason := none,
    created_at := "2026-01-01T00:00:00+00:00" }

/-- Fixture: a second audit record. -/
def wRec2 : LogRecord :=
  { entity_type := "payment", entity_id := "P1", action := "mark_paid",
    before_json := some [("is_paid", .b false)]
    after_json := some [("is_paid", .b true), ("paid_at", .s "t2")]
    actor_user_id := "u1", actor_name := "User One", reason := none,
    created_at := "2026-01-02T00:00:00+00:00" }

/-- Fixture: database with only a customer, for the create/pay/override
trace. -/
def c6Base : DBState :=
  { customers := [wCustomer], loans := [], payments := [], audit_logs := [] }

/-- Trace state after creating a fortnightly loan of 1000. -/
def c6st1 : DBState :=
  okState (create_loan c6Base "c1" 1000 .fortnightly 0 "L1"
    (fun i => "P" ++ toString (i + 1)) "u1" "User" "t1" "a1") c6Base

/-- Trace state after paying installment 1 (balance 706). -/
def c6st2 : DBState :=
  okState (mark_payment_paid c6st1 "L1" 1 "u1" "User" "t2" "a2") c6st1

/-- Trace state after overriding principal_amount back to 1000: the
recompute resets the balance to the full new total 1412. -/
def c6st3 : DBState :=
  okState1 (override_loan_field c6st2 "L1" "principal_amount" 1000
    "rekeying the principal" "u1" "User" "t3" "a3") c6st2

/-! ## Theorems -/

/-- chainEnd of a segment closed by a final entry is that entry's hash. -/
theorem chainEnd_concat (logs : List StoredEntry) (prev : String) (e : StoredEntry) :
    chainEnd prev (logs ++ [e]) = e.integrity_hash := by
  induction logs generalizing prev with
  | nil => rfl
  | cons x t ih => exact ih x.integrity_hash

/-- get_previous_audit_hash agrees with chainEnd from the genesis hash. -/
theorem get_previous_audit_hash_eq (logs : List StoredEntry) :
    get_previous_audit_hash logs = chainEnd "" logs := by
  induction logs using List.reverseRecOn with
  | nil => rfl
  | append_singleton xs e _ =>
    rw [chainEnd_concat]
    unfold get_previous_audit_hash
    rw [List.getLast?_concat]

/-- The verification walk distributes over chain concatenation, the
second segment walked from the stored hash closing the first. -/
theorem verifyWalk_append (xs : List StoredEntry) :
    ∀ (prev : String) (ys : List StoredEntry),
      verifyWalk prev (xs ++ ys) =
        verifyWalk prev xs ++ verifyWalk (chainEnd prev xs) ys := by
  induction xs with
  | nil => intro prev ys; rfl
  | cons e t ih =>
    intro prev ys
    show verifyWalk prev (e :: (t ++ ys)) = _
    rw [verifyWalk, verifyWalk, chainEnd, ih e.integrity_hash ys]
    split
    · rfl
    · rfl

/-- Appending one entry with create_audit_log preserves a mismatch-free
walk: the new entry is hashed against exactly the hash the walk reaches. -/
theorem verifyWalk_create_audit_log (logs : List StoredEntry) (r : LogRecord)
    (i : String) (h : verifyWalk "" logs = []) :
    verifyWalk "" (create_audit_log logs r i) = [] := by
  unfold create_audit_log
  rw [verifyWalk_append, h, get_previous_audit_hash_eq]
  simp [verifyWalk]

/-- Any number of sequential appends onto a mismatch-free ledger keeps
the walk mismatch-free. -/
theorem appendRecords_walk (rs : List (LogRecord × String)) :
    ∀ logs, verifyWalk "" logs = [] → verifyWalk "" (appendRecords logs rs) = [] := by
  induction rs with
  | nil => intro logs h; exact h
  | cons ri rest ih =>
    intro logs h
    exact ih _ (verifyWalk_create_audit_log logs ri.1 ri.2 h)

/-- C1: starting from an empty ledger (previous hash "" in the genesis
case), after any number of sequential appends with no tampering,
verify_audit_integrity reports valid; and the empty ledger is trivially
valid. -/
theorem audit_chain_valid_after_sequential_appends (rs : List (LogRecord × String)) :
    (verify_audit_integrity (appendRecords [] rs)).valid = true ∧
    verify_audit_integrity [] = ⟨true, []⟩ ∧
    get_previous_audit_hash [] = "" := by
  refine ⟨?_, rfl, rfl⟩
  have h := appendRecords_walk rs [] rfl
  simp [verify_audit_integrity, h]

/-- On a mismatch-free chain, rewriting the payload of the entry at
position k (stored hash kept) makes the walk report exactly that entry
when its recomputed hash differs, and nothing otherwise: later entries
still verify because the walk chains on stored hashes. -/
theorem verifyWalk_set_mutated :
    ∀ (chain : List StoredEntry) (k : ℕ) (prev : String) (e : StoredEntry)
      (a' : Option JObj),
      verifyWalk prev chain = [] →
      chain[k]? = some e →
      verifyWalk prev (chain.set k (mutateAfter e a')) =
        if compute_integrity_hash (mutateAfter e a').record (prevStored prev chain k)
            ≠ e.integrity_hash then
          [⟨e.id, compute_integrity_hash (mutateAfter e a').record (prevStored prev chain k),
            e.integrity_hash⟩]
        else [] := by
  intro chain
  induction chain with
  | nil => intro k prev e a' _ hk; simp at hk
  | cons x t ih =>
    intro k prev e a' hvalid hk
    by_cases hx : compute_integrity_hash x.record prev = x.integrity_hash
    · have ht : verifyWalk x.integrity_hash t = [] := by
        rw [verifyWalk, if_neg (not_not_intro hx)] at hvalid
        exact hvalid
      cases k with
      | zero =>
        have hex : x = e := by simpa using hk
        subst hex
        show verifyWalk prev (mutateAfter x a' :: t) = _
        simp only [mutateAfter, prevStored, verifyWalk]
        split
        · simp [ht]
        · exact ht
      | succ k' =>
        have hk' : t[k']? = some e := by simpa using hk
        show verifyWalk prev (x :: t.set k' (mutateAfter e a')) = _
        rw [verifyWalk, if_neg (not_not_intro hx)]
        exact ih k' x.integrity_hash e a' ht hk'
    · exfalso
      rw [verifyWalk, if_pos hx] at hvalid
      exact List.cons_ne_nil _ _ hvalid

/-- C2: on a ledger built by sequential appends, mutating exactly one
stored entry's after_json payload (ids and stored hashes untouched) makes
verify_audit_integrity return valid = false with the mismatch list
holding exactly that entry, at its position, under the collision-freeness
hypothesis that the recomputed hash of the tampered record differs from
the stored hash; the result also shows the reporting cap of 5 is
respected, the list being that singleton. -/
theorem verify_detects_single_mutation (rs : List (LogRecord × String)) (k : ℕ)
    (e : StoredEntry) (a' : Option JObj)
    (hk : (appendRecords [] rs)[k]? = some e)
    (hdiff : compute_integrity_hash (mutateAfter e a').record
        (prevStored "" (appendRecords [] rs) k) ≠ e.integrity_hash) :
    verify_audit_integrity ((appendRecords [] rs).set k (mutateAfter e a')) =
      ⟨false, [⟨e.id, compute_integrity_hash (mutateAfter e a').record
          (prevStored "" (appendRecords [] rs) k), e.integrity_hash⟩]⟩ := by
  have hvalid := appendRecords_walk rs [] rfl
  have hset := verifyWalk_set_mutated (appendRecords [] rs) k "" e a' hvalid hk
  rw [if_pos hdiff] at hset
  obtain ⟨c0, crest, hchain⟩ : ∃ c0 crest, appendRecords [] rs = c0 :: crest := by
    cases hch : appendRecords [] rs with
    | nil => rw [hch] at hk; simp at hk
    | cons a b => exact ⟨a, b, rfl⟩
  rw [hchain] at hset ⊢
  cases k with
  | zero =>
    rw [List.set_cons_zero] at hset ⊢
    simp [verify_audit_integrity, hset]
  | succ k' =>
    rw [List.set_cons_succ] at hset ⊢
    simp [verify_audit_integrity, hset]

/-- Witness for C2: a two-entry ledger, the first entry's after_json
payload tampered with; verification reports exactly that entry, with the
real SHA-256 hashes evaluated concretely. -/
theorem verify_detects_single_mutation_witness :
    verify_audit_integrity ((appendRecords [] [(wRec1, "e1"), (wRec2, "e2")]).set 0
        (mutateAfter ⟨wRec1, "e1", compute_integrity_hash wRec1 ""⟩
          (some [("tampered", .b true)]))) =
      ⟨false, [⟨"e1",
        compute_integrity_hash
          (mutateAfter ⟨wRec1, "e1", compute_integrity_hash wRec1 ""⟩
            (some [("tampered", .b true)])).record
          (prevStored "" (appendRecords [] [(wRec1, "e1"), (wRec2, "e2")]) 0),
        compute_integrity_hash wRec1 ""⟩]⟩ :=
  verify_detects_single_mutation [(wRec1, "e1"), (wRec2, "e2")] 0
    ⟨wRec1, "e1", compute_integrity_hash wRec1 ""⟩ (some [("tampered", .b true)])
    (by rfl) (by decide)

/-- C3 (amended): for every principal P > 0 and plan code C in {1, 2, 4},
calculate_loan returns interest rate 0.40, service fee 12.0, total
round(P * 1.4 + 12, 2), and installment round((P * 1.4 + 12) / C, 2)
computed from the UNROUNDED total (not from the already-rounded total as
the claim stated). -/
theorem calculate_loan_terms (P C : ℚ) (_hP : 0 < P) (hC : C = 1 ∨ C = 2 ∨ C = 4) :
    calculate_loan P C = some
      { interest_rate := 40/100, service_fee := 12,
        total_repayable := pyround2 (P * (14/10) + 12),
        installment_amount := pyround2 ((P * (14/10) + 12) / C) } := by
  have hC0 : C ≠ 0 := by rcases hC with h | h | h <;> rw [h] <;> norm_num
  simp only [calculate_loan, if_neg hC0]
  have h1 : P * (1 + 40/100) + 12 = P * (14/10) + 12 := by ring
  rw [h1]

/-- Counterexample to C3 as stated: at P = 400.01, C = 2 the returned
installment (286.01, from the unrounded total 572.014) differs from
round(totalRepayable / C, 2) computed from the already-rounded total
572.01, which gives 286.00. -/
theorem calculate_loan_terms_cex :
    (calculate_loan (40001/100) 2).map CalcResult.installment_amount ≠
      (calculate_loan (40001/100) 2).map
        (fun r => pyround2 (r.total_repayable / 2)) := by decide

/-- Witness for C3: the spec scenario P = 1000, C = 2 gives total 1412.00
and installment 706.00. -/
theorem calculate_loan_terms_witness :
    0 < (1000 : ℚ) ∧ calculate_loan 1000 2 = some ⟨2/5, 12, 1412, 706⟩ :=
  ⟨by norm_num,
   (calculate_loan_terms 1000 2 (by norm_num) (Or.inr (Or.inl rfl))).trans (by decide)⟩

/-- C4 (amended): for plan code C in {1, 2, 4}, generate_payment_schedule
produces exactly C entries, each initially unpaid, entry i (1-indexed)
due at loanDate + interval(C) * i with interval 30/14/7 days for
C = 1/2/4, and each amount_due = round(totalRepayable / C, 2) of the
total it is given; the claim's final part - that this always matches the
installmentAmount of calculate_loan - fails (see the counterexample). -/
theorem generate_payment_schedule_spec (d total : ℚ) (C : ℕ)
    (_hC : C = 1 ∨ C = 2 ∨ C = 4) :
    (generate_payment_schedule d total C).length = C ∧
    (schedule_interval 1 = 30 ∧ schedule_interval 2 = 14 ∧ schedule_interval 4 = 7) ∧
    (∀ i (hi : i < (generate_payment_schedule d total C).length),
      (generate_payment_schedule d total C).get ⟨i, hi⟩ =
        { installment_number := i + 1
          amount_due := pyround2 (total / (C : ℚ))
          due_date := d + (schedule_interval C : ℚ) * (i + 1)
          is_paid := false, paid_at := none, paid_by := none }) := by
  refine ⟨by simp [generate_payment_schedule], ⟨rfl, rfl, rfl⟩, ?_⟩
  intro i hi
  simp [generate_payment_schedule, List.getElem_map, List.getElem_range]

/-- Counterexample to C4 as stated: with the loan parameters
P = 400.01, C = 2, the schedule amounts (286.00 each, computed from the
rounded total 572.01) do not match calculate_loan's installmentAmount
(286.01, computed from the unrounded total). -/
theorem generate_payment_schedule_spec_cex :
    (generate_payment_schedule 0
        (((calculate_loan (40001/100) 2).map CalcResult.total_repayable).getD 0) 2).map
      ScheduleEntry.amount_due ≠
    [((calculate_loan (40001/100) 2).map CalcResult.installment_amount).getD 0,
     ((calculate_loan (40001/100) 2).map CalcResult.installment_amount).getD 0] := by
  decide

/-- Witness for C4: a fortnightly schedule over total 1412 has exactly 2
entries. -/
theorem generate_payment_schedule_spec_witness :
    (generate_payment_schedule 0 1412 2).length = 2 :=
  (generate_payment_schedule_spec 0 1412 2 (Or.inr (Or.inl rfl))).1

/-- C9 (amended): calculate_loan accepts any positive principal with any
plan code in {1, 2, 4} and faults (ZeroDivisionError) exactly for plan
code 0; a negative principal is NOT rejected (see the counterexample). -/
theorem calculate_loan_domain :
    (∀ P C : ℚ, 0 < P → (C = 1 ∨ C = 2 ∨ C = 4) →
      (calculate_loan P C).isSome = true) ∧
    (∀ P : ℚ, calculate_loan P 0 = none) := by
  constructor
  · intro P C _hP hC
    have hC0 : C ≠ 0 := by rcases hC with h | h | h <;> rw [h] <;> norm_num
    simp [calculate_loan, hC0]
  · intro P
    simp [calculate_loan]

/-- Counterexample to C9 as stated: a negative principal does not fault;
calculate_loan (-100) 2 returns a result. -/
theorem calculate_loan_domain_cex : calculate_loan (-100) 2 ≠ none := by decide

/-- Witness for C9: 1000 at plan 2 is accepted; plan 0 faults. -/
theorem calculate_loan_domain_witness :
    (calculate_loan 1000 2).isSome = true ∧ calculate_loan 5 0 = none :=
  ⟨calculate_loan_domain.1 1000 2 (by norm_num) (Or.inr (Or.inl rfl)),
   calculate_loan_domain.2 5⟩

/-- C10: mask_id_number is total and deterministic; a 13-character input
keeps its first 4 and last 3 characters around six asterisks (13
characters in all, the middle 6 never exposed), and any other length maps
to the constant string of 11 asterisks. -/
theorem mask_id_number_spec (s : List Char) :
    (s.length = 13 →
      mask_id_number s = s.take 4 ++ List.replicate 6 '*' ++ s.drop 10 ∧
      (mask_id_number s).length = 13 ∧
      (mask_id_number s).take 4 = s.take 4 ∧
      (mask_id_number s).drop 10 = s.drop 10) ∧
    (s.length ≠ 13 → mask_id_number s = List.replicate 11 '*') := by
  constructor
  · intro h13
    have hstar : "******".data = List.replicate 6 '*' := by decide
    have hmask : mask_id_number s = s.take 4 ++ List.replicate 6 '*' ++ s.drop 10 := by
      unfold mask_id_number
      rw [if_neg (not_not_intro h13), hstar]
    have htake : (s.take 4).length = 4 := by
      rw [List.length_take]
      omega
    refine ⟨hmask, ?_, ?_, ?_⟩
    · rw [hmask]
      simp [List.length_append, List.length_take, List.length_drop, h13]
    · rw [hmask, List.append_assoc]
      simp [List.take_append_eq_append_take, htake, List.take_take]
    · rw [hmask]
      have hlen : (s.take 4 ++ List.replicate 6 '*').length = 10 := by
        simp [htake]
      rw [← hlen, List.drop_left]
  · intro hne
    unfold mask_id_number
    rw [if_pos hne]
    decide

/-- Witness for C10: the valid spec scenario id number, masked. -/
theorem mask_id_number_spec_witness :
    mask_id_number "8001015009087".data =
      "8001015009087".data.take 4 ++ List.replicate 6 '*' ++
        "8001015009087".data.drop 10 :=
  ((mask_id_number_spec "8001015009087".data).1 (by decide)).1

/-- Every element of an updateOne result is an original element or the
image of one matching element. -/
theorem updateOne_mem_inv {α : Type} (pred : α → Bool) (f : α → α) :
    ∀ (xs : List α) (z : α), z ∈ updateOne pred f xs →
      z ∈ xs ∨ ∃ y ∈ xs, z = f y := by
  intro xs
  induction xs with
  | nil => intro z hz; simp [updateOne] at hz
  | cons x t ih =>
    intro z hz
    rw [updateOne] at hz
    by_cases hx : pred x = true
    · rw [if_pos hx] at hz
      rcases List.mem_cons.mp hz with hz | hz
      · exact Or.inr ⟨x, List.mem_cons_self x t, hz⟩
      · exact Or.inl (List.mem_cons_of_mem x hz)
    · rw [if_neg hx] at hz
      rcases List.mem_cons.mp hz with hz | hz
      · exact Or.inl (hz ▸ List.mem_cons_self x t)
      · rcases ih z hz with hmem | ⟨y, hy, hzy⟩
        · exact Or.inl (List.mem_cons_of_mem x hmem)
        · exact Or.inr ⟨y, List.mem_cons_of_mem x hy, hzy⟩

/-- When a first match exists, updateOne rewrites exactly it: every
element of the result is an original one or the image of that match. -/
theorem updateOne_mem_inv_find {α : Type} (pred : α → Bool) (f : α → α) :
    ∀ (xs : List α) (x : α), xs.find? pred = some x →
      ∀ z ∈ updateOne pred f xs, z ∈ xs ∨ z = f x := by
  intro xs
  induction xs with
  | nil => intro x hx; simp at hx
  | cons y t ih =>
    intro x hx z hz
    rw [updateOne] at hz
    by_cases hy : pred y = true
    · rw [List.find?_cons_of_pos _ hy] at hx
      injection hx with hx
      subst hx
      rw [if_pos hy] at hz
      rcases List.mem_cons.mp hz with hz | hz
      · exact Or.inr hz
      · exact Or.inl (List.mem_cons_of_mem y hz)
    · rw [List.find?_cons_of_neg _ hy] at hx
      rw [if_neg hy] at hz
      rcases List.mem_cons.mp hz with hz | hz
      · exact Or.inl (hz ▸ List.mem_cons_self y t)
      · rcases ih x hx z hz with hmem | hfx
        · exact Or.inl (List.mem_cons_of_mem y hmem)
        · exact Or.inr hfx

/-- The image of the first match belongs to the updateOne result. -/
theorem updateOne_find?_mem {α : Type} (pred : α → Bool) (f : α → α) :
    ∀ (xs : List α) (x : α), xs.find? pred = some x →
      f x ∈ updateOne pred f xs := by
  intro xs
  induction xs with
  | nil => intro x hx; simp at hx
  | cons y t ih =>
    intro x hx
    rw [updateOne]
    by_cases hy : pred y = true
    · rw [List.find?_cons_of_pos _ hy] at hx
      injection hx with hx
      subst hx
      rw [if_pos hy]
      exact List.mem_cons_self _ _
    · rw [List.find?_cons_of_neg _ hy] at hx
      rw [if_neg hy]
      exact List.mem_cons_of_mem y (ih x hx)

/-- After mark_payment_paid's update of the found payment (distinct
payment ids assumed, as uuid4 grants), the same (loan, installment)
lookup finds the updated, now paid, document. -/
theorem find?_pair_after_markPaid (lid : String) (n : ℕ) (now aid : String) :
    ∀ (xs : List PaymentRec) (p : PaymentRec),
      xs.find? (fun q => q.loan_id == lid && q.installment_number == n) = some p →
      (xs.map PaymentRec.id).Nodup →
      (updateOne (fun q => q.id == p.id)
          (fun q => { q with is_paid := true, paid_at := some now,
                             paid_by := some aid }) xs).find?
          (fun q => q.loan_id == lid && q.installment_number == n) =
        some { p with is_paid := true, paid_at := some now, paid_by := some aid } := by
  intro xs
  induction xs with
  | nil => intro p hp; simp at hp
  | cons x t ih =>
    intro p hfind hnodup
    rw [List.map, List.nodup_cons] at hnodup
    rw [List.find?_cons] at hfind
    by_cases hx : (x.loan_id == lid && x.installment_number == n) = true
    · have hpx : x = p := by simpa [hx] using hfind
      subst hpx
      simp [updateOne, List.find?_cons, hx]
    · have hfind' : t.find?
          (fun q => q.loan_id == lid && q.installment_number == n) = some p := by
        simpa [hx] using hfind
      have hpmem : p ∈ t := List.mem_of_find?_eq_some hfind'
      have hxid : (x.id == p.id) = false := by
        have hne : x.id ≠ p.id := by
          intro he
          exact hnodup.1 (he ▸ List.mem_map_of_mem PaymentRec.id hpmem)
        simpa using hne
      simp only [updateOne, List.find?_cons, hxid, hx, Bool.false_eq_true,
        if_false]
      exact ih p hfind' hnodup.2

/-- Inversion of a successful create_loan: the customer list is
unchanged, one loan is appended whose outstanding balance starts at its
total repayable, and its payments are appended. -/
theorem create_loan_ok_inv {st : DBState} {cid : String} {P : ℚ}
    {plan : RepaymentPlan} {d : ℚ} {lid : String} {pids : ℕ → String}
    {aid anm now audid : String} {st' : DBState} {rid : String}
    (h : create_loan st cid P plan d lid pids aid anm now audid = .ok (st', rid)) :
    st'.customers = st.customers ∧
    (∃ loan : LoanRec, st'.loans = st.loans ++ [loan] ∧
      loan.outstanding_balance = loan.total_repayable) ∧
    (∃ pays, st'.payments = st.payments ++ pays) := by
  simp only [create_loan] at h
  split at h
  · simp at h
  · split at h
    · simp at h
    · simp only [Except.ok.injEq, Prod.mk.injEq] at h
      obtain ⟨hst, _⟩ := h
      subst hst
      exact ⟨rfl, ⟨_, rfl, rfl⟩, ⟨_, rfl⟩⟩

/-- Inversion of a successful mark_payment_paid: the found payment was
unpaid, and the state is exactly the two updateOne rewrites plus one
audit append. -/
theorem mark_payment_paid_ok_inv {st : DBState} {lid : String} {n : ℕ}
    {aid anm now aud : String} {st' : DBState} {resp : ℚ × LoanStatus}
    (h : mark_payment_paid st lid n aid anm now aud = .ok (st', resp)) :
    ∃ p loan,
      st.payments.find? (fun q => q.loan_id == lid && q.installment_number == n)
        = some p ∧
      p.is_paid = false ∧
      st.loans.find? (fun l => l.id == lid) = some loan ∧
      st' = { st with
        payments := updateOne (fun q => q.id == p.id)
          (fun q => { q with is_paid := true, paid_at := some now,
                             paid_by := some aid }) st.payments
        loans := updateOne (fun l => l.id == lid)
          (fun l => { l with
              outstanding_balance :=
                max 0 (pyround2 (loan.outstanding_balance - p.amount_due))
              status := if pyround2 (loan.outstanding_balance - p.amount_due) ≤ 0
                        then LoanStatus.paid else loan.status
              updated_at := some now, updated_by := some aid }) st.loans
        audit_logs := create_audit_log st.audit_logs
          ⟨"payment", p.id, "mark_paid", some [("is_paid", .b false)],
           some [("is_paid", .b true), ("paid_at", .s now)], aid, anm, none, now⟩
          aud } := by
  simp only [mark_payment_paid] at h
  split at h
  · simp at h
  · rename_i p hfind
    split at h
    · simp at h
    · rename_i hpaid
      split at h
      · simp at h
      · rename_i loan hloan
        simp only [Except.ok.injEq, Prod.mk.injEq] at h
        obtain ⟨hst, _⟩ := h
        exact ⟨p, loan, hfind, by simpa using hpaid, hloan, hst.symm⟩

/-- Inversion of a successful override_loan_field, at the granularity the
balance analysis needs: customers and payments unchanged, and each
resulting loan is an untouched original, has its balance reset to its own
(recomputed) total, or keeps some original loan's id and balance. -/
theorem override_ok_inv {st : DBState} {lid fname : String} {v : ℚ}
    {reason aid anm now aud : String} {st' : DBState}
    (h : override_loan_field st lid fname v reason aid anm now aud = .ok st') :
    st'.customers = st.customers ∧ st'.payments = st.payments ∧
    ∀ l' ∈ st'.loans, l' ∈ st.loans ∨
      l'.outstanding_balance = l'.total_repayable ∨
      ∃ l ∈ st.loans, l'.id = l.id ∧
        l'.outstanding_balance = l.outstanding_balance := by
  simp only [override_loan_field] at h
  split at h
  · simp at h
  · rename_i loan hloan
    split at h
    · simp at h
    · split at h
      · simp at h
      · split at h
        · split at h
          · simp at h
          · simp only [Except.ok.injEq] at h
            subst h
            refine ⟨rfl, rfl, ?_⟩
            intro l' hl'
            rcases updateOne_mem_inv _ _ _ _ hl' with hmem | ⟨y, hy, hzy⟩
            · exact Or.inl hmem
            · subst hzy
              exact Or.inr (Or.inl rfl)
        · simp only [Except.ok.injEq] at h
          subst h
          refine ⟨rfl, rfl, ?_⟩
          intro l' hl'
          rcases updateOne_mem_inv _ _ _ _ hl' with hmem | ⟨y, hy, hzy⟩
          · exact Or.inl hmem
          · subst hzy
            refine Or.inr (Or.inr ⟨y, hy, ?_, ?_⟩) <;>
              by_cases h1 : (fname == "loan_date") = true <;>
              by_cases h2 : (fname == "principal_amount") = true <;>
              simp [h1, h2]

/-- Inversion of a successful archive_entity: payments unchanged; loans
unchanged or archived-stamped via updateOne. -/
theorem archive_ok_inv {st : DBState} {ety eid reason aid anm now aud : String}
    {st' : DBState}
    (h : archive_entity st ety eid reason aid anm now aud = .ok st') :
    st'.payments = st.payments ∧
    (st'.loans = st.loans ∨
      st'.loans = updateOne (fun l => l.id == eid)
        (fun l => { l with archived_at := some now, archived_by := some aid })
        st.loans) := by
  simp only [archive_entity] at h
  split at h
  · simp at h
  · split at h
    · split at h
      · simp at h
      · simp only [Except.ok.injEq] at h
        subst h
        exact ⟨rfl, Or.inl rfl⟩
    · split at h
      · split at h
        · simp at h
        · simp only [Except.ok.injEq] at h
          subst h
          exact ⟨rfl, Or.inr rfl⟩
      · simp at h

/-- Round-half-even at two decimals exceeds its argument by at most half
a cent. -/
theorem pyround2_le_add (x : ℚ) : pyround2 x ≤ x + 1/200 := by
  have hfl : (⌊x * 100⌋ : ℚ) ≤ x * 100 := Int.floor_le _
  simp only [pyround2]
  split_ifs with h1 h2 h3
  · rw [div_le_iff₀ (by norm_num : (0:ℚ) < 100)]
    push_cast
    linarith
  · rw [div_le_iff₀ (by norm_num : (0:ℚ) < 100)]
    linarith
  · rw [div_le_iff₀ (by norm_num : (0:ℚ) < 100)]
    linarith
  · rw [div_le_iff₀ (by norm_num : (0:ℚ) < 100)]
    push_cast
    linarith

/-- Each original element survives updateOne, either untouched or as its
own image. -/
theorem mem_updateOne_of_mem {α : Type} (pred : α → Bool) (f : α → α) :
    ∀ (xs : List α) (x : α), x ∈ xs →
      x ∈ updateOne pred f xs ∨ f x ∈ updateOne pred f xs := by
  intro xs
  induction xs with
  | nil => intro x hx; simp at hx
  | cons y t ih =>
    intro x hx
    rw [updateOne]
    by_cases hy : pred y = true
    · rw [if_pos hy]
      rcases List.mem_cons.mp hx with hx | hx
      · exact Or.inr (hx ▸ List.mem_cons_self _ _)
      · exact Or.inl (List.mem_cons_of_mem _ hx)
    · rw [if_neg hy]
      rcases List.mem_cons.mp hx with hx | hx
      · exact Or.inl (hx ▸ List.mem_cons_self _ _)
      · rcases ih x hx with hm | hm
        · exact Or.inl (List.mem_cons_of_mem _ hm)
        · exact Or.inr (List.mem_cons_of_mem _ hm)

/-- C5: mark_payment_paid returns success at most once per (loan,
installment): a second call on the same pair fails with the Conflict
error (HTTP 400, already marked as paid); it fails with NotFound (404)
when no payment matches the pair; and no lifecycle API step ever reverts
is_paid from true (payment ids assumed distinct, as uuid4 grants). -/
theorem mark_payment_paid_contract (st : DBState) (lid : String) (n : ℕ)
    (aid anm now aud aid2 anm2 now2 aud2 : String)
    (hnodup : (st.payments.map PaymentRec.id).Nodup) :
    (∀ st' resp, mark_payment_paid st lid n aid anm now aud = .ok (st', resp) →
      mark_payment_paid st' lid n aid2 anm2 now2 aud2 =
        .error (alreadyPaidConflict, st')) ∧
    ((∀ p ∈ st.payments, ¬(p.loan_id = lid ∧ p.installment_number = n)) →
      mark_payment_paid st lid n aid anm now aud = .error (paymentNotFound, st)) ∧
    (∀ st', Step st st' → ∀ p ∈ st.payments, p.is_paid = true →
      ∃ p' ∈ st'.payments, p'.id = p.id ∧ p'.is_paid = true) := by
  refine ⟨?_, ?_, ?_⟩
  · intro st' resp h
    obtain ⟨p, loan, hfind, hunpaid, hloan, hst⟩ := mark_payment_paid_ok_inv h
    have hfind' := find?_pair_after_markPaid lid n now aid st.payments p hfind hnodup
    subst hst
    simp [mark_payment_paid, hfind']
  · intro hnone
    have hfin : st.payments.find?
        (fun q => q.loan_id == lid && q.installment_number == n) = none := by
      rw [List.find?_eq_none]
      intro p hp
      have := hnone p hp
      simp only [Bool.and_eq_true, beq_iff_eq]
      tauto
    simp only [mark_payment_paid, hfin]
  · intro st' hstep p hp hpaid
    cases hstep with
    | create cid P plan d lid2 pids aid3 anm3 now3 audid3 st1 rid h =>
      obtain ⟨_, _, pays, hpay⟩ := create_loan_ok_inv h
      rw [hpay]
      exact ⟨p, List.mem_append_left _ hp, rfl, hpaid⟩
    | markPaid lid2 n2 aid3 anm3 now3 aud3 st1 resp2 h =>
      obtain ⟨q, loan, hfind, hq, hloan, hst⟩ := mark_payment_paid_ok_inv h
      subst hst
      rcases mem_updateOne_of_mem (fun r => r.id == q.id)
          (fun r => { r with is_paid := true, paid_at := some now3,
                             paid_by := some aid3 })
          _ p hp with hmem | hmem
      · exact ⟨p, hmem, rfl, hpaid⟩
      · exact ⟨_, hmem, rfl, rfl⟩
    | override lid2 fname v reason aid3 anm3 now3 aud3 st1 h =>
      obtain ⟨_, hpays, _⟩ := override_ok_inv h
      rw [hpays]
      exact ⟨p, hp, rfl, hpaid⟩
    | archive ety eid reason aid3 anm3 now3 aud3 st1 h =>
      obtain ⟨hpays, _⟩ := archive_ok_inv h
      rw [hpays]
      exact ⟨p, hp, rfl, hpaid⟩

/-- Witness for C5: on the fixture state, installment 1 marked paid once
cannot be marked paid again - the second call returns the Conflict error
carrying the once-paid state. -/
theorem mark_payment_paid_contract_witness :
    mark_payment_paid
        (okState (mark_payment_paid wState "L1" 1 "u1" "User" "t1" "a1") wState)
        "L1" 1 "u2" "User Two" "t2" "a2" =
      .error (alreadyPaidConflict,
        okState (mark_payment_paid wState "L1" 1 "u1" "User" "t1" "a1") wState) :=
  (mark_payment_paid_contract wState "L1" 1 "u1" "User" "t1" "a1"
      "u2" "User Two" "t2" "a2" (by decide)).1
    (okState (mark_payment_paid wState "L1" 1 "u1" "User" "t1" "a1") wState)
    (706, .opened) (by decide)

/-- C6 (amended): a loan's outstanding_balance starts equal to
total_repayable at creation; mark_payment_paid posts exactly
max(0, round(balance - amount_due, 2)), which cannot exceed a nonnegative
prior balance when the installment is at least one cent; archiving
preserves balances; but override_loan_field may reset the balance to the
loan's own recomputed total_repayable (which can exceed the prior
balance - the claim's "never increases" fails there, see the
counterexample), and otherwise preserves it. -/
theorem outstanding_balance_policy :
    (∀ st cid P plan d lid pids aid anm now audid st' rid,
      create_loan st cid P plan d lid pids aid anm now audid = .ok (st', rid) →
      ∀ l ∈ st'.loans, l ∈ st.loans ∨
        l.outstanding_balance = l.total_repayable) ∧
    (∀ st lid n aid anm now aud st' resp,
      mark_payment_paid st lid n aid anm now aud = .ok (st', resp) →
      ∃ p, st.payments.find?
          (fun q => q.loan_id == lid && q.installment_number == n) = some p ∧
        ∀ l' ∈ st'.loans, l' ∈ st.loans ∨
          ∃ l ∈ st.loans, l'.id = l.id ∧
            l'.outstanding_balance =
              max 0 (pyround2 (l.outstanding_balance - p.amount_due))) ∧
    (∀ bal amt : ℚ, 0 ≤ bal → 1/100 ≤ amt →
      max 0 (pyround2 (bal - amt)) ≤ bal) ∧
    (∀ st ety eid reason aid anm now aud st',
      archive_entity st ety eid reason aid anm now aud = .ok st' →
      ∀ l' ∈ st'.loans, ∃ l ∈ st.loans, l'.id = l.id ∧
        l'.outstanding_balance = l.outstanding_balance) ∧
    (∀ st lid fname v reason aid anm now aud st',
      override_loan_field st lid fname v reason aid anm now aud = .ok st' →
      ∀ l' ∈ st'.loans, l' ∈ st.loans ∨
        l'.outstanding_balance = l'.total_repayable ∨
        ∃ l ∈ st.loans, l'.id = l.id ∧
          l'.outstanding_balance = l.outstanding_balance) := by
  refine ⟨?_, ?_, ?_, ?_, ?_⟩
  · intro st cid P plan d lid pids aid anm now audid st' rid h l hl
    obtain ⟨_, ⟨loan, hloans, hbal⟩, _⟩ := create_loan_ok_inv h
    rw [hloans] at hl
    rcases List.mem_append.mp hl with hl | hl
    · exact Or.inl hl
    · rcases List.mem_singleton.mp hl with rfl
      exact Or.inr hbal
  · intro st lid n aid anm now aud st' resp h
    obtain ⟨p, loan, hfind, hunpaid, hloan, hst⟩ := mark_payment_paid_ok_inv h
    subst hst
    refine ⟨p, hfind, ?_⟩
    intro l' hl'
    rcases updateOne_mem_inv_find _ _ st.loans loan hloan l' hl' with hmem | hl'
    · exact Or.inl hmem
    · subst hl'
      exact Or.inr ⟨loan, List.mem_of_find?_eq_some hloan, rfl, rfl⟩
  · intro bal amt hb ha
    have h1 := pyround2_le_add (bal - amt)
    apply max_le hb
    linarith
  · intro st ety eid reason aid anm now aud st' h l' hl'
    obtain ⟨_, hloans | hloans⟩ := archive_ok_inv h
    · rw [hloans] at hl'
      exact ⟨l', hl', rfl, rfl⟩
    · rw [hloans] at hl'
      rcases updateOne_mem_inv _ _ st.loans l' hl' with hmem | ⟨y, hy, hzy⟩
      · exact ⟨l', hmem, rfl, rfl⟩
      · subst hzy
        exact ⟨y, hy, rfl, rfl⟩
  · intro st lid fname v reason aid anm now aud st' h
    exact (override_ok_inv h).2.2

/-- Counterexample to C6 as stated: create a fortnightly loan of 1000
(balance 1412), pay the first installment (balance 706), then override
principal_amount back to 1000: the recompute resets the same loan's
balance to 1412, an increase, over one API step. -/
theorem outstanding_balance_policy_cex :
    Step c6st2 c6st3 ∧
    c6st2.loans.map LoanRec.id = ["L1"] ∧
    c6st3.loans.map LoanRec.id = ["L1"] ∧
    c6st2.loans.map LoanRec.outstanding_balance = [706] ∧
    c6st3.loans.map LoanRec.outstanding_balance = [1412] ∧
    ¬((1412 : ℚ) ≤ 706) :=
  ⟨Step.override c6st2 "L1" "principal_amount" 1000 "rekeying the principal"
      "u1" "User" "t3" "a3" c6st3 (by decide),
   by decide, by decide, by decide, by decide, by decide⟩

/-- Witness for C6: the arithmetic conjunct at balance 1412, installment
706: the posted balance 706 does not exceed 1412. -/
theorem outstanding_balance_policy_witness :
    max 0 (pyround2 ((1412 : ℚ) - 706)) ≤ 1412 :=
  outstanding_balance_policy.2.2.1 1412 706 (by norm_num) (by norm_num)

/-- C7: overriding principal_amount or repayment_plan_code (with an
acceptable reason) recomputes the full terms from the new value merged
with the loan's current other value and overwrites interest_rate,
service_fee, total_repayable, installment_amount and outstanding_balance,
the balance reset to the full recomputed total regardless of any payments
already posted (the payments collection is untouched and never
consulted). -/
theorem override_field_recompute (st : DBState) (lid fname : String) (v : ℚ)
    (reason aid anm now aud : String) (loan : LoanRec) (calcRes : CalcResult)
    (hloan : st.loans.find? (fun l => l.id == lid) = some loan)
    (hf : fname = "principal_amount" ∨ fname = "repayment_plan_code")
    (hreason : 10 ≤ reason.length)
    (hcalc : calculate_loan
        (if fname == "principal_amount" then v else loan.principal_amount)
        (if fname == "repayment_plan_code" then v else loan.repayment_plan_code) =
      some calcRes) :
    ∃ st', override_loan_field st lid fname v reason aid anm now aud = .ok st' ∧
      st'.payments = st.payments ∧
      ∃ l' ∈ st'.loans, l'.id = loan.id ∧
        l'.interest_rate = calcRes.interest_rate ∧
        l'.service_fee = calcRes.service_fee ∧
        l'.total_repayable = calcRes.total_repayable ∧
        l'.installment_amount = calcRes.installment_amount ∧
        l'.outstanding_balance = calcRes.total_repayable := by
  rcases hf with hf | hf <;> subst hf <;>
    simp only [override_loan_field, hloan, overrideAllowed] <;>
    rw [if_neg (by decide), if_neg (by omega : ¬(reason.length < 10)),
      if_pos (by decide)] <;>
    rw [hcalc] <;>
    exact ⟨_, rfl, rfl, _, updateOne_find?_mem _ _ st.loans loan hloan,
      by simp, rfl, rfl, rfl, rfl, rfl⟩

/-- Witness for C7: on the fixture loan (balance 1412, one payment
posted in no way relevant), overriding principal_amount to 2000 rewrites
the terms to total 2812, installment 1406, balance 2812. -/
theorem override_field_recompute_witness :
    ∃ st', override_loan_field wState "L1" "principal_amount" 2000
        "management corrected amount" "u2" "Manager" "t5" "a5" = .ok st' ∧
      st'.payments = wState.payments ∧
      ∃ l' ∈ st'.loans, l'.id = wLoan.id ∧
        l'.interest_rate = 2/5 ∧
        l'.service_fee = 12 ∧
        l'.total_repayable = 2812 ∧
        l'.installment_amount = 1406 ∧
        l'.outstanding_balance = 2812 :=
  override_field_recompute wState "L1" "principal_amount" 2000
    "management corrected amount" "u2" "Manager" "t5" "a5" wLoan
    ⟨2/5, 12, 2812, 1406⟩ (by decide) (Or.inl rfl) (by decide) (by decide)

/-- C8: override_loan_field with a reason shorter than 10 characters (on
an existing loan and an allow-listed field) fails with the
InvalidArgument error and performs no write at all: the state carried at
the raise is exactly the pre-call state, so no loan field changed and no
audit entry was appended. -/
theorem override_short_reason_rejected (st : DBState) (lid fname : String)
    (v : ℚ) (reason aid anm now aud : String) (loan : LoanRec)
    (hloan : st.loans.find? (fun l => l.id == lid) = some loan)
    (hallowed : overrideAllowed fname = true)
    (hshort : reason.length < 10) :
    override_loan_field st lid fname v reason aid anm now aud =
      .error (reasonTooShort, st) := by
  simp only [override_loan_field, hloan]
  rw [if_neg (by simp [hallowed]), if_pos hshort]

/-- Witness for C8: a one-character reason is rejected and the returned
error carries the unchanged fixture state. -/
theorem override_short_reason_rejected_witness :
    override_loan_field wState "L1" "principal_amount" 2000 "x" "u2" "Manager"
      "t6" "a6" = .error (reasonTooShort, wState) :=
  override_short_reason_rejected wState "L1" "principal_amount" 2000 "x" "u2"
    "Manager" "t6" "a6" wLoan (by decide) (by decide) (by decide)

end EasyMoney
